import Mathlib

/-!
Verification of the Cognitive Fusion core (AtomSpace, EmbeddingSpace,
LearnableNetwork, EmbeddingLearner, AgentOrchestrator, CognitiveFusionReactor)
against its natural-language specification.

Modelling conventions:
* C++ `float` values are modelled as rationals (`ℚ`); the float constants
  0.1f, 0.5f, 0.7f, 1e-8f of the source become the exact rationals
  1/10, 1/2, 7/10, 1/100000000.
* `std::sqrt` has no rational counterpart, so every definition that needs it
  takes an explicit square-root function `sq : ℚ → ℚ` as a parameter;
  theorems that depend on its behaviour assume only `sq 0 = 0`.
* `std::unordered_map` is modelled as an association list updated in place
  (`setAssoc`); well-formed states have pairwise distinct keys.
* Code that throws (`std::runtime_error`) is modelled with `Except String`;
  code whose only failure is undefined behaviour (out-of-bounds vector
  indexing) is modelled with `Option`, `none` standing for the UB case.
* `std::mutex` locking is dropped: all claims are about the sequential
  behaviour of single operations.
-/

namespace BoltCognitive

/-- Look up the value stored under key `k` in an association list
(model of `std::unordered_map::find`). -/
def lookupA {κ α : Type} [DecidableEq κ] (l : List (κ × α)) (k : κ) : Option α :=
  match l with
  | [] => none
  | (k', v) :: rest => if k' = k then some v else lookupA rest k

/-- Store `v` under key `k`, replacing the first existing entry or appending a
new one (model of `std::unordered_map::operator[]`-then-assign). -/
def setAssoc {κ α : Type} [DecidableEq κ] (l : List (κ × α)) (k : κ) (v : α) : List (κ × α) :=
  match l with
  | [] => [(k, v)]
  | (k', v') :: rest => if k' = k then (k, v) :: rest else (k', v') :: setAssoc rest k v

/-- Model of `std::clamp(v, lo, hi)`. -/
def clampQ (v lo hi : ℚ) : ℚ :=
  if v < lo then lo else if hi < v then hi else v

-- Basic lemmas about the association-list primitives.

theorem lookupA_setAssoc_self {κ α : Type} [DecidableEq κ] (l : List (κ × α)) (k : κ) (v : α) :
    lookupA (setAssoc l k v) k = some v := by
  induction l with
  | nil => simp [setAssoc, lookupA]
  | cons p rest ih =>
    obtain ⟨k', v'⟩ := p
    by_cases h : k' = k
    · simp [setAssoc, lookupA, h]
    · simp [setAssoc, lookupA, h, ih]

theorem lookupA_setAssoc_other {κ α : Type} [DecidableEq κ] (l : List (κ × α)) (k k' : κ) (v : α)
    (hne : k' ≠ k) : lookupA (setAssoc l k v) k' = lookupA l k' := by
  induction l with
  | nil =>
    simp only [setAssoc, lookupA]
    rw [if_neg fun h => hne h.symm]
  | cons p rest ih =>
    obtain ⟨k₀, v₀⟩ := p
    by_cases h : k₀ = k
    · subst h
      simp only [setAssoc, if_pos rfl, lookupA]
      rw [if_neg fun h => hne h.symm, if_neg fun h => hne h.symm]
    · simp only [setAssoc, if_neg h, lookupA]
      by_cases h' : k₀ = k'
      · simp [h']
      · simp [h', ih]

theorem mem_setAssoc {κ α : Type} [DecidableEq κ] (l : List (κ × α)) (k : κ) (v : α) :
    ∀ p ∈ setAssoc l k v, p = (k, v) ∨ p ∈ l := by
  induction l with
  | nil => simp [setAssoc]
  | cons q rest ih =>
    obtain ⟨k₀, v₀⟩ := q
    by_cases h : k₀ = k
    · intro p hp
      simp only [setAssoc, if_pos h, List.mem_cons] at hp
      rcases hp with h1 | h2
      · exact Or.inl h1
      · exact Or.inr (List.mem_cons_of_mem _ h2)
    · intro p hp
      simp only [setAssoc, if_neg h, List.mem_cons] at hp
      rcases hp with h1 | h2
      · exact Or.inr (h1 ▸ List.mem_cons_self _ _)
      · rcases ih p h2 with h3 | h4
        · exact Or.inl h3
        · exact Or.inr (List.mem_cons_of_mem _ h4)

theorem lookupA_mem {κ α : Type} [DecidableEq κ] (l : List (κ × α)) (k : κ) (v : α)
    (h : lookupA l k = some v) : (k, v) ∈ l := by
  induction l with
  | nil => simp [lookupA] at h
  | cons p rest ih =>
    obtain ⟨k₀, v₀⟩ := p
    by_cases hk : k₀ = k
    · subst hk
      rw [lookupA, if_pos rfl] at h
      injection h with h
      subst h
      exact List.mem_cons_self _ _
    · simp only [lookupA, if_neg hk] at h
      exact List.mem_cons_of_mem _ (ih h)

theorem mem_lookupA {κ α : Type} [DecidableEq κ] (l : List (κ × α)) (k : κ) (v : α)
    (hnd : (l.map Prod.fst).Nodup) (hm : (k, v) ∈ l) : lookupA l k = some v := by
  induction l with
  | nil => simp at hm
  | cons p rest ih =>
    obtain ⟨k₀, v₀⟩ := p
    simp only [List.map_cons, List.nodup_cons] at hnd
    rcases List.mem_cons.mp hm with h1 | h2
    · obtain ⟨h1', h1''⟩ := Prod.mk.injEq .. ▸ h1
      subst h1'
      simp only [lookupA, if_pos rfl]
      exact congrArg some h1''.symm ▸ rfl
    · by_cases hk : k₀ = k
      · exfalso
        subst hk
        exact hnd.1 (List.mem_map_of_mem Prod.fst h2)
      · simp only [lookupA, if_neg hk]
        exact ih hnd.2 h2

-- ======================================================================
-- AtomSpace (atomspace.hpp / atomspace.cpp)
-- ======================================================================

/-- Model of the `Atom` class hierarchy: a `Node` carries a name and an
optional embedding vector, a `Link` carries a type string and an ordered
outgoing list.  Outgoing atoms are referenced by their handles (the C++ code
stores shared pointers; every atom reachable this way lives in the store's
handle map, and the only observation the verified operations make of an
outgoing atom is `getHandle()`).  Truth values play no role in the claims and
are omitted. -/
inductive Atom : Type
  | node (name : String) (embedding : List ℚ)
  | link (type : String) (outgoing : List ℕ)
deriving DecidableEq, Repr

/-- Model of `Atom::isNode`. -/
def Atom.isNode : Atom → Bool
  | .node _ _ => true
  | .link _ _ => false

/-- Handle → atom map, name index and handle counter of `AtomSpace`. -/
structure AtomSpace : Type where
  atoms : List (ℕ × Atom)
  nameIndex : List (String × List ℕ)
  nextHandle : ℕ
deriving DecidableEq, Repr

/-- The empty `AtomSpace()` (counter starts at 0). -/
def AtomSpace.empty : AtomSpace := ⟨[], [], 0⟩

/-- Look up the handle list recorded in the name index. -/
def AtomSpace.indexOf (s : AtomSpace) (name : String) : Option (List ℕ) :=
  lookupA s.nameIndex name

/-- Model of `name_index_[name].push_back(handle)`. -/
def indexAdd (idx : List (String × List ℕ)) (name : String) (h : ℕ) :
    List (String × List ℕ) :=
  match idx with
  | [] => [(name, [h])]
  | (n, hs) :: rest =>
    if n = name then (n, hs ++ [h]) :: rest else (n, hs) :: indexAdd rest name h

/-- Model of `AtomSpace::getAtom`. -/
def AtomSpace.getAtom (s : AtomSpace) (h : ℕ) : Option Atom :=
  lookupA s.atoms h

/-- Model of `AtomSpace::addNode(name, embedding)`: if the name index already
holds a non-empty handle list for `name` and its first handle refers to a
Node, that node's handle is returned and the store is untouched; otherwise a
fresh node is created under the next handle.  Returns the handle of the
resulting node together with the updated store (the C++ code returns the
`NodePtr`; its only observed attributes are the handle and the stored atom). -/
def AtomSpace.addNode (s : AtomSpace) (name : String) (embedding : List ℚ) :
    ℕ × AtomSpace :=
  let fresh : ℕ × AtomSpace :=
    let h := s.nextHandle + 1
    (h, ⟨s.atoms ++ [(h, Atom.node name embedding)], indexAdd s.nameIndex name h,
         h⟩)
  match s.indexOf name with
  | some (h :: _) =>
    match lookupA s.atoms h with
    | some (Atom.node _ _) => (h, s)
    | _ => fresh
  | _ => fresh

/-- Model of `AtomSpace::addLink(type, outgoing)`: always creates a fresh link
and records its type in the name index. -/
def AtomSpace.addLink (s : AtomSpace) (type : String) (outgoing : List ℕ) :
    ℕ × AtomSpace :=
  let h := s.nextHandle + 1
  (h, ⟨s.atoms ++ [(h, Atom.link type outgoing)], indexAdd s.nameIndex type h, h⟩)

-- ======================================================================
-- Cosine similarity and k-NN queries (atomspace.cpp, tensor_embedding.hpp)
-- ======================================================================

/-- Sum of pointwise products over the common length (the C++ loops run over
`a.size()` after the length guard, so both vectors have that length). -/
def dotQ (a b : List ℚ) : ℚ :=
  (a.zip b).foldl (fun s p => s + p.1 * p.2) 0

/-- Sum of squares of a vector's entries. -/
def sumSq (a : List ℚ) : ℚ :=
  a.foldl (fun s x => s + x * x) 0

/-- Model of the file-local `cosineSimilarity` of `atomspace.cpp`: returns 0
on length mismatch or empty vectors, and 0 when
`sqrt(norm_a)*sqrt(norm_b) < 1e-8`; otherwise the quotient.  `sq` stands for
`std::sqrt`. -/
def cosineSimilarity (sq : ℚ → ℚ) (a b : List ℚ) : ℚ :=
  if a.length ≠ b.length ∨ a.length = 0 then 0
  else
    let denominator := sq (sumSq a) * sq (sumSq b)
    if denominator < 1 / 100000000 then 0 else dotQ a b / denominator

/-- Comparator of the `std::sort` calls in `querySimilar`/`findNearest`
(`a.second > b.second`, i.e. descending similarity); sorting with its
non-strict closure `b.second ≤ a.second` orders by non-increasing
similarity, which is what `std::sort` guarantees for this comparator. -/
def bySimilarityDesc {α : Type} (a b : α × ℚ) : Bool :=
  decide (b.2 ≤ a.2)

/-- The collection loop of `AtomSpace::querySimilar`: every node carrying a
non-empty embedding whose cosine similarity to the query is at least the
threshold, paired with that similarity, in store order. -/
def collectNodeSims (sq : ℚ → ℚ) (query : List ℚ) (threshold : ℚ)
    (atoms : List (ℕ × Atom)) : List (ℕ × ℚ) :=
  atoms.foldr
    (fun p acc =>
      match p.2 with
      | Atom.node _ emb =>
        if emb ≠ [] then
          let sim := cosineSimilarity sq query emb
          if threshold ≤ sim then (p.1, sim) :: acc else acc
        else acc
      | Atom.link _ _ => acc) []

/-- Model of `AtomSpace::querySimilar(query_embedding, k, threshold)`: collect
every node carrying a non-empty embedding whose cosine similarity to the
query is at least the threshold, sort descending by similarity, keep the
first `k`.  Result entries are `(handle, similarity)` pairs (the C++ returns
`NodePtr`s; the handle identifies the node). -/
def AtomSpace.querySimilar (sq : ℚ → ℚ) (s : AtomSpace) (query : List ℚ)
    (k : ℕ) (threshold : ℚ) : List (ℕ × ℚ) :=
  ((collectNodeSims sq query threshold s.atoms).mergeSort bySimilarityDesc).take k

-- ======================================================================
-- TensorEmbedding and EmbeddingSpace (tensor_embedding.hpp)
-- ======================================================================

/-- A `TensorEmbedding` is a vector whose `dimensions()` always equals the
length of its data (every constructor of the C++ class establishes this), so
it is modelled as the data list itself. -/
abbrev TensorEmbedding : Type := List ℚ

/-- Model of `TensorEmbedding::dimensions()`. -/
def TensorEmbedding.dimensions (t : TensorEmbedding) : ℕ :=
  List.length t

/-- Model of `TensorEmbedding::cosineSimilarity`: returns 0 on dimension
mismatch or zero dimensions, 0 when the denominator is below `1e-8`,
otherwise the quotient — the same computation as the store's file-local
`cosineSimilarity`. -/
def TensorEmbedding.cosineSimilarityT (sq : ℚ → ℚ) (a b : TensorEmbedding) : ℚ :=
  cosineSimilarity sq a b

/-- Fixed dimension count and (name, vector) entries of `EmbeddingSpace`. -/
structure EmbeddingSpace : Type where
  dimensions : ℕ
  embeddings : List (String × TensorEmbedding)

/-- Model of `EmbeddingSpace::addEmbedding(id, embedding)`: throws on
dimension mismatch, otherwise appends the pair. -/
def EmbeddingSpace.addEmbedding (sp : EmbeddingSpace) (id : String)
    (embedding : TensorEmbedding) : Except String EmbeddingSpace :=
  if embedding.dimensions ≠ sp.dimensions then
    .error "Embedding dimension mismatch"
  else .ok ⟨sp.dimensions, sp.embeddings ++ [(id, embedding)]⟩

/-- The collection loop of `EmbeddingSpace::findNearest`: every stored entry
whose similarity to the query is at least the threshold, in storage order. -/
def collectSpaceSims (sq : ℚ → ℚ) (query : TensorEmbedding) (threshold : ℚ)
    (embeddings : List (String × TensorEmbedding)) : List (String × ℚ) :=
  embeddings.foldr
    (fun p acc =>
      let sim := TensorEmbedding.cosineSimilarityT sq query p.2
      if threshold ≤ sim then (p.1, sim) :: acc else acc) []

/-- Model of `EmbeddingSpace::findNearest(query, k, threshold)`: throws when
the query's dimensions differ from the space's, otherwise collects entries
with similarity at least the threshold, sorts descending and keeps the first
`k`. -/
def EmbeddingSpace.findNearest (sq : ℚ → ℚ) (sp : EmbeddingSpace)
    (query : TensorEmbedding) (k : ℕ) (threshold : ℚ) :
    Except String (List (String × ℚ)) :=
  if query.dimensions ≠ sp.dimensions then .error "Query dimension mismatch"
  else
    .ok (((collectSpaceSims sq query threshold sp.embeddings).mergeSort
      bySimilarityDesc).take k)

/-- Model of `EmbeddingSpace::getEmbedding(id)`: first stored match or none
(`lookupA` scans front to back, exactly like the C++ loop). -/
def EmbeddingSpace.getEmbedding (sp : EmbeddingSpace) (id : String) :
    Option TensorEmbedding :=
  lookupA sp.embeddings id

-- ======================================================================
-- NeuralLayer / LearnableNetwork / EmbeddingLearner (neural_learnability.hpp)
-- ======================================================================

/-- Model of `activation::relu`. -/
def relu (x : ℚ) : ℚ := max 0 x

/-- Model of `activation::reluDerivative`. -/
def reluDerivative (x : ℚ) : ℚ := if 0 < x then 1 else 0

/-- Model of `NeuralLayer`: weight matrix `[outputSize][inputSize]`, biases,
activation function and derivative (`std::function` fields), and the cached
input/pre-activation from the last forward pass (`last_output_` is never read
by any verified operation and is omitted).  The He-random initialization of
the constructor is modelled by quantifying theorems over arbitrary weight
values of the right shape. -/
structure NeuralLayer : Type where
  inputSize : ℕ
  outputSize : ℕ
  weights : List (List ℚ)
  biases : List ℚ
  activation : ℚ → ℚ
  activationDerivative : ℚ → ℚ
  lastInput : List ℚ
  lastPreactivation : List ℚ

/-- Shape invariant established by the `NeuralLayer` constructor: the weight
matrix is `outputSize` rows of `inputSize` entries and there are `outputSize`
biases. -/
def NeuralLayer.WellShaped (l : NeuralLayer) : Prop :=
  l.weights.length = l.outputSize ∧ (∀ row ∈ l.weights, row.length = l.inputSize) ∧
    l.biases.length = l.outputSize

/-- Pre-activation of output unit `i`:
`bias_i + Σ_{j < inputSize} weights[i][j] * input[j]` (the C++ inner loop).
Out-of-range accesses (undefined behaviour in C++) default to 0; theorems
restrict to well-shaped layers and long-enough inputs, where no default is
ever taken. -/
def preactAt (l : NeuralLayer) (input : List ℚ) (i : ℕ) : ℚ :=
  (List.range l.inputSize).foldl
    (fun s j => s + ((l.weights.getD i []).getD j 0) * input.getD j 0)
    (l.biases.getD i 0)

/-- Model of `NeuralLayer::forward(input)`: `input[j]` is read for every
`j < input_size_`, which is out of bounds (undefined behaviour) when the
input is shorter — modelled as `none`.  Otherwise computes the
pre-activations and activations over the first `inputSize` entries, caches
input and pre-activations, and returns the updated layer with the output. -/
def NeuralLayer.forward (l : NeuralLayer) (input : List ℚ) :
    Option (NeuralLayer × List ℚ) :=
  if input.length < l.inputSize then none
  else
    let preact := (List.range l.outputSize).map (preactAt l input)
    let out := preact.map l.activation
    some ({ l with lastInput := input, lastPreactivation := preact }, out)

/-- Model of `NeuralLayer::backward(output_gradient, learning_rate)`: computes
the pre-activation gradient, the input gradient from the pre-update weights,
and updates weights and biases in place.  Returns the updated layer and the
input gradient. -/
def NeuralLayer.backward (l : NeuralLayer) (outputGradient : List ℚ)
    (learningRate : ℚ) : NeuralLayer × List ℚ :=
  let preactGradient := (List.range l.outputSize).map
    (fun i => outputGradient.getD i 0 * l.activationDerivative (l.lastPreactivation.getD i 0))
  let inputGradient := (List.range l.inputSize).map
    (fun j => (List.range l.outputSize).foldl
      (fun s i => s + preactGradient.getD i 0 * ((l.weights.getD i []).getD j 0)) 0)
  let weights := (List.range l.outputSize).map
    (fun i => (List.range l.inputSize).map
      (fun j => ((l.weights.getD i []).getD j 0) -
        learningRate * preactGradient.getD i 0 * l.lastInput.getD j 0))
  let biases := (List.range l.outputSize).map
    (fun i => l.biases.getD i 0 - learningRate * preactGradient.getD i 0)
  ({ l with weights := weights, biases := biases }, inputGradient)

/-- Model of `LearnableNetwork`: ordered layers and the learning rate. -/
structure LearnableNetwork : Type where
  layers : List NeuralLayer
  learningRate : ℚ

/-- Chain the forward passes of a list of layers, threading each layer's
cache update (the C++ `LearnableNetwork::forward` loop). -/
def forwardLayers : List NeuralLayer → List ℚ → Option (List NeuralLayer × List ℚ)
  | [], input => some ([], input)
  | l :: ls, input =>
    match l.forward input with
    | none => none
    | some (l', out) =>
      match forwardLayers ls out with
      | none => none
      | some (ls', final) => some (l' :: ls', final)

/-- Model of `LearnableNetwork::forward`. -/
def LearnableNetwork.forward (net : LearnableNetwork) (input : List ℚ) :
    Option (LearnableNetwork × List ℚ) :=
  match forwardLayers net.layers input with
  | none => none
  | some (ls, out) => some ({ net with layers := ls }, out)

/-- Propagate a gradient through the layers in reverse order, updating each
(the C++ `LearnableNetwork::backward` loop over `rbegin()..rend()`). -/
def backwardLayers (lr : ℚ) : List NeuralLayer → List ℚ → List NeuralLayer × List ℚ
  | [], grad => ([], grad)
  | l :: ls, grad =>
    let (ls', g) := backwardLayers lr ls grad
    let (l', g') := l.backward g lr
    (l' :: ls', g')

/-- Model of `LearnableNetwork::train(input, target)`: forward pass, MSE loss
and gradient over the output length (reading `target[i]` for every output
index is out of bounds when the target is shorter — modelled as `none`),
backward pass, returns the pre-update loss.  There is NO input-dimension
check anywhere on this path. -/
def LearnableNetwork.train (net : LearnableNetwork) (input target : List ℚ) :
    Option (ℚ × LearnableNetwork) :=
  match net.forward input with
  | none => none
  | some (net', output) =>
    if target.length < output.length then none
    else
      let n : ℚ := (output.length : ℚ)
      let gradient := (List.range output.length).map
        (fun i => 2 * (output.getD i 0 - target.getD i 0) / n)
      let loss := ((List.range output.length).foldl
        (fun s i => s + (output.getD i 0 - target.getD i 0) *
          (output.getD i 0 - target.getD i 0)) 0) / n
      let (ls, _) := backwardLayers net'.learningRate net'.layers gradient
      some (loss, { net' with layers := ls })

/-- Model of `EmbeddingLearner`: the embedding dimension and the wrapped
two-layer network (`dim → 2·dim → dim`, ReLU); the shape is carried as a
hypothesis by the theorems, mirroring the constructor. -/
structure EmbeddingLearner : Type where
  embeddingDim : ℕ
  network : LearnableNetwork

/-- Shape established by the `EmbeddingLearner` constructor: two ReLU layers,
`dim → 2·dim` and `2·dim → dim`, both well-shaped. -/
def EmbeddingLearner.CtorShape (l : EmbeddingLearner) : Prop :=
  ∃ l1 l2 : NeuralLayer,
    l.network.layers = [l1, l2] ∧
    l1.inputSize = l.embeddingDim ∧ l1.outputSize = 2 * l.embeddingDim ∧
    l2.inputSize = 2 * l.embeddingDim ∧ l2.outputSize = l.embeddingDim ∧
    l1.WellShaped ∧ l2.WellShaped

/-- Model of `EmbeddingLearner::transform(input)`: throws
"Input dimension mismatch" when the input's dimensions differ from the
learner's, otherwise runs the network forward.  The forward pass's only
failure mode is C++ undefined behaviour (out-of-bounds read), surfaced as an
`error` distinct from the dimension-mismatch message. -/
def EmbeddingLearner.transform (l : EmbeddingLearner) (input : TensorEmbedding) :
    Except String (EmbeddingLearner × TensorEmbedding) :=
  if input.dimensions ≠ l.embeddingDim then .error "Input dimension mismatch"
  else
    match l.network.forward input with
    | none => .error "out-of-bounds read in forward pass"
    | some (net, out) => .ok ({ l with network := net }, out)

/-- Model of `EmbeddingLearner::learnFromSimilarity(e1, e2, target)`:
transforms both embeddings, computes the current cosine similarity of the
transformed vectors and the loss `(current - target)^2`, builds the synthetic
target for `e1` by the heuristic `0.1·(target - current)` nudge, performs one
`train(e1, target1)` step (whose returned loss is discarded), and returns the
loss computed before that weight update. -/
def EmbeddingLearner.learnFromSimilarity (sq : ℚ → ℚ) (l : EmbeddingLearner)
    (e1 e2 : TensorEmbedding) (targetSimilarity : ℚ) :
    Except String (ℚ × EmbeddingLearner) :=
  match l.transform e1 with
  | .error e => .error e
  | .ok (la, t1) =>
    match la.transform e2 with
    | .error e => .error e
    | .ok (lb, t2) =>
      let currentSimilarity := TensorEmbedding.cosineSimilarityT sq t1 t2
      let loss := (currentSimilarity - targetSimilarity) ^ 2
      let adjustment := (targetSimilarity - currentSimilarity) * (1 / 10)
      let target1 := (List.range l.embeddingDim).map
        (fun i => e1.getD i 0 + adjustment * (t2.getD i 0 - t1.getD i 0))
      match lb.network.train e1 target1 with
      | none => .error "out-of-bounds read in train"
      | some (_, net) => .ok (loss, { lb with network := net })

-- ======================================================================
-- Agent and AgentOrchestrator (agent_orchestrator.hpp)
-- ======================================================================

/-- Model of the `AgentState` enumeration. -/
inductive AgentState : Type
  | IDLE | THINKING | ACTING | LEARNING | COMMUNICATING | SUSPENDED | TERMINATED
deriving DecidableEq, Repr

/-- Model of `AgentMessage` (`from` is a Lean keyword, hence the guillemets). -/
structure AgentMessage : Type where
  «from» : String
  «to» : String
  type : String
  content : String
  timestamp : ℕ
deriving DecidableEq, Repr

/-- Model of `Agent`: identity, state and the FIFO message queue (head =
front).  The `think`/`act` virtuals and the orchestrator back-pointer play no
role in the message-delivery claims. -/
structure Agent : Type where
  id : String
  name : String
  state : AgentState
  messageQueue : List AgentMessage
deriving DecidableEq, Repr

/-- Model of `Agent::receiveMessage`: push at the back of the queue. -/
def Agent.receiveMessage (a : Agent) (m : AgentMessage) : Agent :=
  { a with messageQueue := a.messageQueue ++ [m] }

/-- Model of `Agent::hasMessages`. -/
def Agent.hasMessages (a : Agent) : Bool :=
  !a.messageQueue.isEmpty

/-- Model of `Agent::getNextMessage`: throws "No messages available" on an
empty queue, otherwise returns the front message and pops it. -/
def Agent.getNextMessage (a : Agent) : Except String (AgentMessage × Agent) :=
  match a.messageQueue with
  | [] => .error "No messages available"
  | m :: rest => .ok (m, { a with messageQueue := rest })

/-- Model of `AgentOrchestrator`'s registry (the running flag, threads and
strategy drive the concurrent loops, which are outside the sequential
model). -/
structure AgentOrchestrator : Type where
  agents : List Agent
deriving DecidableEq, Repr

/-- Model of `AgentOrchestrator::registerAgent`. -/
def AgentOrchestrator.registerAgent (o : AgentOrchestrator) (a : Agent) :
    AgentOrchestrator :=
  ⟨o.agents ++ [a]⟩

/-- Model of `AgentOrchestrator::getAgent(id)`: first agent with that id. -/
def AgentOrchestrator.getAgent (o : AgentOrchestrator) (id : String) :
    Option Agent :=
  o.agents.find? (fun a => a.id = id)

/-- Enqueue `m` on the first agent whose id is `m.to`, if any (the effect of
`getAgent(msg.to)` followed by `receiveMessage` through the shared
pointer). -/
def deliver (m : AgentMessage) : List Agent → List Agent
  | [] => []
  | a :: rest =>
    if a.id = m.«to» then a.receiveMessage m :: rest else a :: deliver m rest

/-- Model of `AgentOrchestrator::sendMessage(message)`: deliver to the first
agent with id `message.to`; silently a no-op when none is registered. -/
def AgentOrchestrator.sendMessage (o : AgentOrchestrator) (m : AgentMessage) :
    AgentOrchestrator :=
  ⟨deliver m o.agents⟩

-- ======================================================================
-- CognitiveFusionReactor (fusion_reactor.hpp)
-- ======================================================================

/-- Model of the ECAN-inspired `AttentionValue` struct. -/
structure AttentionValue : Type where
  sti : ℚ
  lti : ℚ
  vlti : ℚ
deriving DecidableEq, Repr

/-- Model of `CognitiveFusionReactor`: the composed components plus the two
side-tables.  The `EmbeddingLearner` constructor couples
`embedding_space_`'s and `learner_`'s dimension to `embedding_dim_`; that
coupling is a hypothesis of the theorems that need it. -/
structure CognitiveFusionReactor : Type where
  atomspace : AtomSpace
  embeddingSpace : EmbeddingSpace
  learner : EmbeddingLearner
  orchestrator : AgentOrchestrator
  embeddingDim : ℕ
  learningRate : ℚ
  relevanceScores : List (ℕ × ℚ)
  attentionBank : List (ℕ × AttentionValue)

/-- Model of `CognitiveFusionReactor::setRelevance`: clamp to [0,1], store. -/
def CognitiveFusionReactor.setRelevance (r : CognitiveFusionReactor) (h : ℕ)
    (relevance : ℚ) : CognitiveFusionReactor :=
  { r with relevanceScores := setAssoc r.relevanceScores h (clampQ relevance 0 1) }

/-- Model of `CognitiveFusionReactor::getRelevance`: stored value or 0.5. -/
def CognitiveFusionReactor.getRelevance (r : CognitiveFusionReactor) (h : ℕ) : ℚ :=
  (lookupA r.relevanceScores h).getD (1 / 2)

/-- Model of `CognitiveFusionReactor::updateRelevance(handle, delta)`:
`relevance_scores_[handle]` default-constructs 0 for a missing entry, the sum
is clamped to [0,1] and stored; when `delta > 0` and the handle has an
attention entry, that entry's sti is raised to `min(1, sti + delta*0.5)`. -/
def CognitiveFusionReactor.updateRelevance (r : CognitiveFusionReactor) (h : ℕ)
    (delta : ℚ) : CognitiveFusionReactor :=
  let prev := (lookupA r.relevanceScores h).getD 0
  let scores := setAssoc r.relevanceScores h (clampQ (prev + delta) 0 1)
  let bank :=
    if 0 < delta then
      match lookupA r.attentionBank h with
      | some av => setAssoc r.attentionBank h
          ⟨min 1 (av.sti + delta * (1 / 2)), av.lti, av.vlti⟩
      | none => r.attentionBank
    else r.attentionBank
  { r with relevanceScores := scores, attentionBank := bank }

/-- Model of `CognitiveFusionReactor::setAttention`. -/
def CognitiveFusionReactor.setAttention (r : CognitiveFusionReactor) (h : ℕ)
    (attention : AttentionValue) : CognitiveFusionReactor :=
  { r with attentionBank := setAssoc r.attentionBank h attention }

/-- Model of `CognitiveFusionReactor::getAttention`: stored value or the
`{0.5, 0.5, 0.5}` read default. -/
def CognitiveFusionReactor.getAttention (r : CognitiveFusionReactor) (h : ℕ) :
    AttentionValue :=
  (lookupA r.attentionBank h).getD ⟨1 / 2, 1 / 2, 1 / 2⟩

/-- Model of `attention_bank_[handle]` followed by the capped sti raise inside
`spreadAttention`: a missing entry is value-initialized to `{0, 0, 0}` by
`operator[]` before its sti is raised. -/
def bumpSti (bank : List (ℕ × AttentionValue)) (h : ℕ) :
    List (ℕ × AttentionValue) :=
  let av := (lookupA bank h).getD ⟨0, 0, 0⟩
  setAssoc bank h ⟨min 1 (av.sti + 1 / 10), av.lti, av.vlti⟩

/-- The handles collected in the first loop of `spreadAttention`: every bank
entry whose sti exceeds 0.7, in bank order. -/
def collectHigh (bank : List (ℕ × AttentionValue)) : List ℕ :=
  (bank.filter (fun p => decide (7 / 10 < p.2.sti))).map Prod.fst

/-- Model of `CognitiveFusionReactor::spreadAttention`: collect the
high-attention handles from the current bank, then for each collected handle
that resolves to a Link raise the sti of every atom in its outgoing list by
0.1 capped at 1.0 (via `attention_bank_[...]`, which materializes missing
entries as `{0,0,0}`). -/
def CognitiveFusionReactor.spreadAttention (r : CognitiveFusionReactor) :
    CognitiveFusionReactor :=
  let high := collectHigh r.attentionBank
  let bank := high.foldl
    (fun bank h =>
      match r.atomspace.getAtom h with
      | some (Atom.link _ outgoing) => outgoing.foldl bumpSti bank
      | _ => bank)
    r.attentionBank
  { r with attentionBank := bank }

/-- Model of `CognitiveFusionReactor::addConcept(name, embedding)`: add/reuse
the node, insert into the embedding space when the embedding is non-empty and
of the configured dimension (an insertion the space would reject surfaces the
space's exception), then initialize relevance 0.5 and attention
{0.5, 0.5, 0.5} for the node's handle. -/
def CognitiveFusionReactor.addConcept (r : CognitiveFusionReactor)
    (name : String) (embedding : List ℚ) :
    Except String (ℕ × CognitiveFusionReactor) :=
  let (h, as) := r.atomspace.addNode name embedding
  let r1 := { r with atomspace := as }
  match
    (if embedding ≠ [] ∧ embedding.length = r.embeddingDim then
      r1.embeddingSpace.addEmbedding name embedding
    else .ok r1.embeddingSpace) with
  | .error e => .error e
  | .ok sp =>
    let r2 := { r1 with embeddingSpace := sp }
    .ok (h, (r2.setRelevance h (1 / 2)).setAttention h ⟨1 / 2, 1 / 2, 1 / 2⟩)

/-- Model of `CognitiveFusionReactor::learnSimilarity(c1, c2, target)`: look
both names up in the embedding space; if either is absent return the sentinel
loss -1.0 with the reactor untouched, otherwise delegate to the learner. -/
def CognitiveFusionReactor.learnSimilarity (sq : ℚ → ℚ)
    (r : CognitiveFusionReactor) (concept1 concept2 : String)
    (targetSimilarity : ℚ) : Except String (ℚ × CognitiveFusionReactor) :=
  match r.embeddingSpace.getEmbedding concept1,
        r.embeddingSpace.getEmbedding concept2 with
  | some e1, some e2 =>
    match r.learner.learnFromSimilarity sq e1 e2 targetSimilarity with
    | .error e => .error e
    | .ok (loss, l) => .ok (loss, { r with learner := l })
  | _, _ => .ok (-1, r)

-- ======================================================================
-- Helper lemmas
-- ======================================================================

theorem lookupA_append_of_not_mem {κ α : Type} [DecidableEq κ]
    (l l2 : List (κ × α)) (k : κ) (hk : ∀ p ∈ l, p.1 ≠ k) :
    lookupA (l ++ l2) k = lookupA l2 k := by
  induction l with
  | nil => rfl
  | cons p rest ih =>
    obtain ⟨k₀, v₀⟩ := p
    have hne : k₀ ≠ k := hk (k₀, v₀) (List.mem_cons_self _ _)
    simp only [List.cons_append, lookupA, if_neg hne]
    exact ih fun p hp => hk p (List.mem_cons_of_mem _ hp)

theorem lookupA_append_left {κ α : Type} [DecidableEq κ]
    (l l2 : List (κ × α)) (k : κ) (v : α) (h : lookupA l k = some v) :
    lookupA (l ++ l2) k = some v := by
  induction l with
  | nil => simp [lookupA] at h
  | cons p rest ih =>
    obtain ⟨k₀, v₀⟩ := p
    by_cases hk : k₀ = k
    · rw [lookupA, if_pos hk] at h
      rw [List.cons_append, lookupA, if_pos hk]
      exact h
    · rw [lookupA, if_neg hk] at h
      rw [List.cons_append, lookupA, if_neg hk]
      exact ih h

/-- The dedup path of `addNode`: when the first handle recorded under `name`
refers to a Node, `addNode` returns that handle and the untouched store. -/
theorem addNode_existing (s : AtomSpace) (name : String) (e : List ℚ)
    (h : ℕ) (rest : List ℕ) (nm : String) (emb : List ℚ)
    (hidx : s.indexOf name = some (h :: rest))
    (hat : lookupA s.atoms h = some (Atom.node nm emb)) :
    s.addNode name e = (h, s) := by
  simp only [AtomSpace.addNode, hidx, hat]

theorem indexAdd_lookup_self (idx : List (String × List ℕ)) (name : String)
    (h : ℕ) :
    lookupA (indexAdd idx name h) name = some ((lookupA idx name).getD [] ++ [h]) := by
  induction idx with
  | nil => simp [indexAdd, lookupA]
  | cons p rest ih =>
    obtain ⟨n, hs⟩ := p
    by_cases hn : n = name
    · simp [indexAdd, lookupA, hn]
    · simp only [indexAdd, if_neg hn, lookupA, ih]

-- ======================================================================
-- Claim C1 (corrected)
-- ======================================================================

/-- C1, counterexample: the claim "addNode(name, anyEmbedding) returns the
existing Node whenever the name already maps to one, even when a Link with
the same type string was added to the store before the Node" is false.  After
`addLink("x", {})` followed by `addNode("x")`, the store maps handle 2 to a
Node named "x" — so the name maps to an existing Node — yet a second
`addNode("x")` returns the fresh handle 3, because the dedup check inspects
only the FIRST handle recorded in the name index, which is the link's. -/
theorem addNode_dedup_fails_after_link :
    (((AtomSpace.empty.addLink "x" []).2.addNode "x" []).2.getAtom
        ((AtomSpace.empty.addLink "x" []).2.addNode "x" []).1
      = some (Atom.node "x" [])) ∧
    ((((AtomSpace.empty.addLink "x" []).2.addNode "x" []).2.addNode "x" []).1
      ≠ ((AtomSpace.empty.addLink "x" []).2.addNode "x" []).1) := by
  constructor
  · rfl
  · decide

/-- C1, amended: `addNode(name, e)` returns the existing node's handle with
the store untouched (the embedding argument ignored) exactly on the dedup
path the code implements — when the FIRST handle recorded under `name` in the
name index refers to a Node.  Consequently two successive `addNode(name)`
calls return the same handle whenever `name` was previously unmapped (in
particular when no Link with the same type string preceded the first call);
the freshness hypothesis `p.1 ≤ s.nextHandle` is the store's handle-counter
invariant. -/
theorem addNode_dedup (s : AtomSpace) (name : String) (e : List ℚ) :
    (∀ h rest nm emb, s.indexOf name = some (h :: rest) →
      lookupA s.atoms h = some (Atom.node nm emb) → s.addNode name e = (h, s)) ∧
    (∀ e2, (s.indexOf name = none ∨ s.indexOf name = some []) →
      (∀ p ∈ s.atoms, p.1 ≤ s.nextHandle) →
      ((s.addNode name e).2.addNode name e2).1 = (s.addNode name e).1) := by
  constructor
  · intro h rest nm emb hidx hat
    exact addNode_existing s name e h rest nm emb hidx hat
  · intro e2 hidx hbound
    have hfresh : s.addNode name e =
        (s.nextHandle + 1,
          ⟨s.atoms ++ [(s.nextHandle + 1, Atom.node name e)],
           indexAdd s.nameIndex name (s.nextHandle + 1), s.nextHandle + 1⟩) := by
      rcases hidx with hnone | hnil
      · simp only [AtomSpace.addNode, hnone]
      · simp only [AtomSpace.addNode, hnil]
    rw [hfresh]
    have hgetd : (lookupA s.nameIndex name).getD [] = [] := by
      simp only [AtomSpace.indexOf] at hidx
      rcases hidx with hnone | hnil
      · rw [hnone]; rfl
      · rw [hnil]; rfl
    have hidx1 : lookupA (indexAdd s.nameIndex name (s.nextHandle + 1)) name
        = some [s.nextHandle + 1] := by
      rw [indexAdd_lookup_self, hgetd]
      rfl
    have hat1 : lookupA (s.atoms ++ [(s.nextHandle + 1, Atom.node name e)])
        (s.nextHandle + 1) = some (Atom.node name e) := by
      rw [lookupA_append_of_not_mem _ _ _
        (fun p hp => Nat.ne_of_lt (Nat.lt_succ_of_le (hbound p hp)))]
      simp [lookupA]
    simp only [AtomSpace.addNode, AtomSpace.indexOf, hidx1, hat1]

/-- C1 witness: on a fresh store, `addNode("cat")` followed by
`addNode("cat", {1})` returns the original handle (embedding ignored). -/
theorem addNode_dedup_witness :
    ((AtomSpace.empty.addNode "cat" []).2.addNode "cat" [1]).1
      = (AtomSpace.empty.addNode "cat" []).1 :=
  (addNode_dedup AtomSpace.empty "cat" []).2 [1] (Or.inl rfl)
    (by intro p hp; simp [AtomSpace.empty] at hp)

-- ======================================================================
-- Claim C8 (confirmed)
-- ======================================================================

/-- C8: `addEmbedding(name, vector)` fails with an explicit error exactly when
the vector's length differs from the space's dimensions (so the stored-vector
invariant is preserved by every successful insertion), and `findNearest`
fails with a hard error exactly when the query's length differs from the
space's dimensions. -/
theorem embeddingSpace_dimension_checks (sp : EmbeddingSpace) (id : String)
    (v : TensorEmbedding) (sq : ℚ → ℚ) (q : TensorEmbedding) (k : ℕ) (t : ℚ) :
    (v.dimensions ≠ sp.dimensions →
      sp.addEmbedding id v = .error "Embedding dimension mismatch") ∧
    (v.dimensions = sp.dimensions →
      sp.addEmbedding id v = .ok ⟨sp.dimensions, sp.embeddings ++ [(id, v)]⟩) ∧
    ((∀ p ∈ sp.embeddings, TensorEmbedding.dimensions p.2 = sp.dimensions) →
      ∀ r, sp.addEmbedding id v = .ok r →
        r.dimensions = sp.dimensions ∧
        ∀ p ∈ r.embeddings, TensorEmbedding.dimensions p.2 = r.dimensions) ∧
    (q.dimensions ≠ sp.dimensions →
      sp.findNearest sq q k t = .error "Query dimension mismatch") ∧
    (q.dimensions = sp.dimensions →
      ∃ res, sp.findNearest sq q k t = .ok res) := by
  refine ⟨fun hne => ?_, fun heq => ?_, fun hinv r hr => ?_, fun hne => ?_,
    fun heq => ?_⟩
  · simp only [EmbeddingSpace.addEmbedding, if_pos hne]
  · simp only [EmbeddingSpace.addEmbedding, if_neg (not_not_intro heq)]
  · by_cases heq : v.dimensions = sp.dimensions
    · simp only [EmbeddingSpace.addEmbedding, if_neg (not_not_intro heq),
        Except.ok.injEq] at hr
      subst hr
      refine ⟨rfl, fun p hp => ?_⟩
      rcases List.mem_append.mp hp with h1 | h2
      · exact hinv p h1
      · simp only [List.mem_singleton] at h2
        subst h2
        exact heq
    · simp [EmbeddingSpace.addEmbedding, if_pos heq] at hr
  · simp only [EmbeddingSpace.findNearest, if_pos hne]
  · cases hfn : sp.findNearest sq q k t with
    | error e =>
      simp only [EmbeddingSpace.findNearest, if_neg (not_not_intro heq)] at hfn
      exact absurd hfn (by simp)
    | ok res => exact ⟨res, rfl⟩

/-- C8 witness: in a 2-dimensional space, inserting a 1-dimensional vector and
querying with a 1-dimensional vector both fail, and inserting a
2-dimensional vector succeeds and keeps every stored vector 2-dimensional. -/
theorem embeddingSpace_dimension_checks_witness :
    (EmbeddingSpace.addEmbedding ⟨2, []⟩ "a" [1]
      = .error "Embedding dimension mismatch") ∧
    (EmbeddingSpace.findNearest (fun x => x) ⟨2, []⟩ [1] 5 0
      = .error "Query dimension mismatch") ∧
    (EmbeddingSpace.addEmbedding ⟨2, []⟩ "a" [1, 0]
      = .ok ⟨2, [("a", [1, 0])]⟩) :=
  ⟨(embeddingSpace_dimension_checks ⟨2, []⟩ "a" [1] (fun x => x) [1] 5 0).1
      (by decide),
   (embeddingSpace_dimension_checks ⟨2, []⟩ "a" [1] (fun x => x) [1] 5 0).2.2.2.1
      (by decide),
   (embeddingSpace_dimension_checks ⟨2, []⟩ "a" [1, 0] (fun x => x) [1] 5 0).2.1
      (by decide)⟩

-- ======================================================================
-- Claim C6 (confirmed)
-- ======================================================================

theorem clampQ_unit_mem (v : ℚ) : 0 ≤ clampQ v 0 1 ∧ clampQ v 0 1 ≤ 1 := by
  unfold clampQ
  split_ifs with h1 h2
  · norm_num
  · norm_num
  · constructor <;> linarith

/-- C6: `updateRelevance(handle, delta)` stores
`clamp(previousRelevance + delta, 0, 1)` under the handle (so the stored
relevance is within [0,1] after every call) and leaves every other relevance
entry alone; exactly when `delta > 0` and the handle already has an attention
entry it additionally raises that entry's sti to `min(1, sti + 0.5*delta)`,
and leaves the attention bank untouched otherwise. -/
theorem updateRelevance_spec (r : CognitiveFusionReactor) (h : ℕ) (delta : ℚ) :
    (lookupA (r.updateRelevance h delta).relevanceScores h
      = some (clampQ ((lookupA r.relevanceScores h).getD 0 + delta) 0 1)) ∧
    (∀ v, lookupA (r.updateRelevance h delta).relevanceScores h = some v →
      0 ≤ v ∧ v ≤ 1) ∧
    (∀ k, k ≠ h → lookupA (r.updateRelevance h delta).relevanceScores k
      = lookupA r.relevanceScores k) ∧
    (0 < delta → ∀ av, lookupA r.attentionBank h = some av →
      (r.updateRelevance h delta).attentionBank
        = setAssoc r.attentionBank h
            ⟨min 1 (av.sti + delta * (1 / 2)), av.lti, av.vlti⟩) ∧
    ((¬ 0 < delta ∨ lookupA r.attentionBank h = none) →
      (r.updateRelevance h delta).attentionBank = r.attentionBank) := by
  refine ⟨?_, ?_, ?_, ?_, ?_⟩
  · simp only [CognitiveFusionReactor.updateRelevance]
    exact lookupA_setAssoc_self _ _ _
  · intro v hv
    simp only [CognitiveFusionReactor.updateRelevance,
      lookupA_setAssoc_self] at hv
    injection hv with hv
    exact hv ▸ clampQ_unit_mem _
  · intro k hk
    simp only [CognitiveFusionReactor.updateRelevance]
    exact lookupA_setAssoc_other _ _ _ _ hk
  · intro hpos av hav
    simp only [CognitiveFusionReactor.updateRelevance, if_pos hpos, hav]
  · intro hcase
    rcases hcase with hneg | hnone
    · simp only [CognitiveFusionReactor.updateRelevance, if_neg hneg]
    · by_cases hpos : 0 < delta
      · simp only [CognitiveFusionReactor.updateRelevance, if_pos hpos, hnone]
      · simp only [CognitiveFusionReactor.updateRelevance, if_neg hpos]

/-- Concrete reactor used by the C6 witness: one relevance entry `(1, 0.9)`
and one attention entry `(1, {0.5, 0, 0})`. -/
def witnessReactorC6 : CognitiveFusionReactor :=
  ⟨AtomSpace.empty, ⟨0, []⟩, ⟨0, ⟨[], 0⟩⟩, ⟨[]⟩, 0, 0,
   [(1, 9 / 10)], [(1, ⟨1 / 2, 0, 0⟩)]⟩

/-- C6 witness: `updateRelevance(1, 0.5)` on a reactor where handle 1 has
relevance 0.9 and sti 0.5 clamps the relevance to 1 and raises the sti to
0.75. -/
theorem updateRelevance_spec_witness :
    lookupA (witnessReactorC6.updateRelevance 1 (1 / 2)).relevanceScores 1
      = some 1 ∧
    (witnessReactorC6.updateRelevance 1 (1 / 2)).attentionBank
      = [(1, ⟨3 / 4, 0, 0⟩)] := by
  constructor
  · rw [(updateRelevance_spec witnessReactorC6 1 (1 / 2)).1]
    norm_num [witnessReactorC6, lookupA, clampQ]
  · rw [(updateRelevance_spec witnessReactorC6 1 (1 / 2)).2.2.2.1 (by norm_num)
      ⟨1 / 2, 0, 0⟩ (by rfl)]
    norm_num [witnessReactorC6, setAssoc]

-- ======================================================================
-- Claim C7 (confirmed)
-- ======================================================================

theorem deliver_of_no_match (m : AgentMessage) (l : List Agent)
    (hno : ∀ a ∈ l, a.id ≠ m.«to») : deliver m l = l := by
  induction l with
  | nil => rfl
  | cons a rest ih =>
    simp only [deliver, if_neg (hno a (List.mem_cons_self _ _))]
    rw [ih fun b hb => hno b (List.mem_cons_of_mem _ hb)]

theorem deliver_first_match (m : AgentMessage) (pre : List Agent) (a : Agent)
    (post : List Agent) (hpre : ∀ b ∈ pre, b.id ≠ m.«to») (ha : a.id = m.«to») :
    deliver m (pre ++ a :: post)
      = pre ++ ({ a with messageQueue := a.messageQueue ++ [m] } : Agent) :: post := by
  induction pre with
  | nil => simp [deliver, if_pos ha, Agent.receiveMessage]
  | cons b rest ih =>
    simp only [List.cons_append, deliver,
      if_neg (hpre b (List.mem_cons_self _ _))]
    rw [List.append_eq, ih fun c hc => hpre c (List.mem_cons_of_mem _ hc)]

/-- C7: `sendMessage(msg)` delivers the message — appended at the back of the
queue of the first registered agent whose id equals `msg.to`, so that
`hasMessages` becomes true and `getNextMessage` returns the message with its
content preserved — exactly when such an agent is registered; when none is,
the orchestrator (and so every agent's queue) is unchanged and no error is
raised. -/
theorem sendMessage_spec (o : AgentOrchestrator) (m : AgentMessage) :
    ((∀ a ∈ o.agents, a.id ≠ m.«to») → o.sendMessage m = o) ∧
    (∀ pre a post, o.agents = pre ++ a :: post → (∀ b ∈ pre, b.id ≠ m.«to») →
      a.id = m.«to» →
      (o.sendMessage m).agents
        = pre ++ ({ a with messageQueue := a.messageQueue ++ [m] } : Agent) :: post ∧
      Agent.hasMessages { a with messageQueue := a.messageQueue ++ [m] } = true ∧
      (a.messageQueue = [] →
        Agent.getNextMessage { a with messageQueue := a.messageQueue ++ [m] }
          = .ok (m, { a with messageQueue := ([] : List AgentMessage) }))) := by
  constructor
  · intro hno
    simp only [AgentOrchestrator.sendMessage, deliver_of_no_match m o.agents hno]
  · intro pre a post hsplit hpre ha
    refine ⟨?_, ?_, ?_⟩
    · simp only [AgentOrchestrator.sendMessage, hsplit,
        deliver_first_match m pre a post hpre ha]
    · simp [Agent.hasMessages]
    · intro hq
      rw [hq]
      rfl

/-- Agents used by the C7 witness. -/
def witnessAgentA : Agent := ⟨"a", "Alice", AgentState.IDLE, []⟩

/-- Second agent used by the C7 witness. -/
def witnessAgentB : Agent := ⟨"b", "Bob", AgentState.IDLE, []⟩

/-- Message used by the C7 witness. -/
def witnessMessage : AgentMessage := ⟨"a", "b", "greeting", "hello", 0⟩

/-- C7 witness: with agents "a" and "b" registered, a message to "b" lands at
the back of b's queue and `getNextMessage` returns it; a message to the
unregistered id "c" leaves the orchestrator unchanged. -/
theorem sendMessage_spec_witness :
    (AgentOrchestrator.sendMessage ⟨[witnessAgentA, witnessAgentB]⟩
        witnessMessage).agents
      = [witnessAgentA,
         ⟨"b", "Bob", AgentState.IDLE, [witnessMessage]⟩] ∧
    Agent.getNextMessage ⟨"b", "Bob", AgentState.IDLE, [witnessMessage]⟩
      = .ok (witnessMessage, witnessAgentB) ∧
    AgentOrchestrator.sendMessage ⟨[witnessAgentA, witnessAgentB]⟩
        ⟨"a", "c", "greeting", "hello", 0⟩
      = ⟨[witnessAgentA, witnessAgentB]⟩ := by
  have h2 := (sendMessage_spec ⟨[witnessAgentA, witnessAgentB]⟩
      witnessMessage).2 [witnessAgentA] witnessAgentB [] rfl
      (by decide) (by decide)
  have h1 := (sendMessage_spec ⟨[witnessAgentA, witnessAgentB]⟩
      ⟨"a", "c", "greeting", "hello", 0⟩).1 (by decide)
  refine ⟨?_, ?_, h1⟩
  · rw [h2.1]
    rfl
  · have := h2.2.2 rfl
    simpa [witnessAgentB, witnessMessage] using this

-- ======================================================================
-- Claims C4 and C10: spreadAttention
-- ======================================================================

/-- Outgoing handles contributed by handle `h` in the spreading loop: the
link's outgoing list when `h` resolves to a Link, nothing otherwise. -/
def outsOf (s : AtomSpace) (h : ℕ) : List ℕ :=
  match s.getAtom h with
  | some (Atom.link _ outgoing) => outgoing
  | _ => []

/-- All handles receiving a +0.1 sti bump in one `spreadAttention` call, with
multiplicity and in processing order. -/
def spreadTargets (r : CognitiveFusionReactor) : List ℕ :=
  (collectHigh r.attentionBank).flatMap (outsOf r.atomspace)

/-- One application of the capped sti raise, starting from the
`operator[]`-materialized `{0,0,0}` when the entry is absent. -/
def bumpOnce (o : Option AttentionValue) : AttentionValue :=
  let av := o.getD ⟨0, 0, 0⟩
  ⟨min 1 (av.sti + 1 / 10), av.lti, av.vlti⟩

/-- `n`-fold application of the capped sti raise. -/
def bumpN : ℕ → Option AttentionValue → Option AttentionValue
  | 0, o => o
  | n + 1, o => bumpN n (some (bumpOnce o))

theorem lookupA_bumpSti_self (bank : List (ℕ × AttentionValue)) (k : ℕ) :
    lookupA (bumpSti bank k) k = some (bumpOnce (lookupA bank k)) := by
  simp only [bumpSti, bumpOnce]
  exact lookupA_setAssoc_self _ _ _

theorem lookupA_bumpSti_other (bank : List (ℕ × AttentionValue)) (k h : ℕ)
    (hne : h ≠ k) : lookupA (bumpSti bank k) h = lookupA bank h := by
  simp only [bumpSti]
  exact lookupA_setAssoc_other _ _ _ _ hne

theorem lookupA_foldl_bumpSti (l : List ℕ) :
    ∀ (bank : List (ℕ × AttentionValue)) (h : ℕ),
      lookupA (l.foldl bumpSti bank) h = bumpN (l.count h) (lookupA bank h) := by
  induction l with
  | nil => intro bank h; rfl
  | cons k rest ih =>
    intro bank h
    by_cases hk : h = k
    · subst hk
      rw [List.foldl_cons, ih, lookupA_bumpSti_self,
        List.count_cons_self, bumpN]
    · rw [List.foldl_cons, ih, lookupA_bumpSti_other bank k h hk,
        List.count_cons_of_ne (fun hc => hk hc) rest]

theorem foldl_spread_eq_flatMap (s : AtomSpace) (hs : List ℕ) :
    ∀ bank : List (ℕ × AttentionValue),
      hs.foldl
        (fun bank h =>
          match s.getAtom h with
          | some (Atom.link _ outgoing) => outgoing.foldl bumpSti bank
          | _ => bank) bank
      = (hs.flatMap (outsOf s)).foldl bumpSti bank := by
  induction hs with
  | nil => intro bank; rfl
  | cons h rest ih =>
    intro bank
    rw [List.foldl_cons, List.flatMap_cons, List.foldl_append]
    cases hatom : s.getAtom h with
    | none =>
      simp only [hatom, outsOf, List.foldl_nil]
      exact ih bank
    | some a =>
      cases a with
      | node nm emb =>
        simp only [hatom, outsOf, List.foldl_nil]
        exact ih bank
      | link t outgoing =>
        simp only [hatom, outsOf]
        exact ih _

theorem spreadAttention_bank_eq (r : CognitiveFusionReactor) :
    (r.spreadAttention).attentionBank
      = (spreadTargets r).foldl bumpSti r.attentionBank :=
  foldl_spread_eq_flatMap r.atomspace (collectHigh r.attentionBank) r.attentionBank

theorem spreadAttention_atomspace_eq (r : CognitiveFusionReactor) :
    (r.spreadAttention).atomspace = r.atomspace := rfl

theorem mem_collectHigh (bank : List (ℕ × AttentionValue)) (h : ℕ)
    (hnd : (bank.map Prod.fst).Nodup) :
    h ∈ collectHigh bank ↔
      ∃ av, lookupA bank h = some av ∧ 7 / 10 < av.sti := by
  constructor
  · intro hmem
    simp only [collectHigh, List.mem_map, List.mem_filter] at hmem
    obtain ⟨⟨k, av⟩, ⟨hin, hsti⟩, hfst⟩ := hmem
    refine ⟨av, ?_, of_decide_eq_true hsti⟩
    exact hfst ▸ mem_lookupA bank k av hnd hin
  · rintro ⟨av, hlook, hsti⟩
    simp only [collectHigh, List.mem_map, List.mem_filter]
    exact ⟨(h, av), ⟨lookupA_mem bank h av hlook, decide_eq_true hsti⟩, rfl⟩

/-- C4: `spreadAttention` is a single one-hop pass: (i) the handles collected
are exactly those whose sti exceeds 0.7; (ii) an atom `A` of a collected
link's outgoing list that is bumped exactly once overall ends with
`sti = min(1, sti + 0.1)`, lti/vlti untouched; (iii) any handle receiving no
bump — in particular a collected link not itself inside a collected link's
outgoing list — keeps its attention entry unchanged, so the link's own sti is
unchanged.  Applied twice by the witness, this yields the claim's
0.2 → 0.3 → 0.4 non-idempotent scenario. -/
theorem spreadAttention_spec (r : CognitiveFusionReactor) :
    ((r.attentionBank.map Prod.fst).Nodup →
      ∀ h, h ∈ collectHigh r.attentionBank ↔
        ∃ av, lookupA r.attentionBank h = some av ∧ 7 / 10 < av.sti) ∧
    (∀ L t outs A avL avA,
      lookupA r.attentionBank L = some avL → 7 / 10 < avL.sti →
      r.atomspace.getAtom L = some (Atom.link t outs) → A ∈ outs →
      (spreadTargets r).count A = 1 →
      lookupA r.attentionBank A = some avA →
      lookupA (r.spreadAttention).attentionBank A
        = some ⟨min 1 (avA.sti + 1 / 10), avA.lti, avA.vlti⟩) ∧
    (∀ h, (spreadTargets r).count h = 0 →
      lookupA (r.spreadAttention).attentionBank h
        = lookupA r.attentionBank h) := by
  refine ⟨fun hnd h => mem_collectHigh r.attentionBank h hnd, ?_, ?_⟩
  · intro L t outs A avL avA hL hsti hatom hmem hcount hA
    rw [spreadAttention_bank_eq, lookupA_foldl_bumpSti, hcount, hA]
    rfl
  · intro h hcount
    rw [spreadAttention_bank_eq, lookupA_foldl_bumpSti, hcount]
    rfl

/-- Concrete reactor for the C4 witness: nodes A=1, B=2 with sti 0.2, link
L=3 over {1, 2} with sti 0.8. -/
def witnessReactorC4 : CognitiveFusionReactor :=
  ⟨⟨[(1, Atom.node "A" []), (2, Atom.node "B" []), (3, Atom.link "L" [1, 2])],
    [("A", [1]), ("B", [2]), ("L", [3])], 3⟩,
   ⟨0, []⟩, ⟨0, ⟨[], 0⟩⟩, ⟨[]⟩, 0, 0, [],
   [(1, ⟨2 / 10, 2 / 10, 2 / 10⟩), (2, ⟨2 / 10, 2 / 10, 2 / 10⟩),
    (3, ⟨8 / 10, 5 / 10, 5 / 10⟩)]⟩

theorem collectHigh_witnessC4 :
    collectHigh witnessReactorC4.attentionBank = [3] := by
  have d1 : decide ((7 : ℚ) / 10 < 2 / 10) = false := by norm_num
  have d2 : decide ((7 : ℚ) / 10 < 8 / 10) = true := by norm_num
  simp [collectHigh, witnessReactorC4, List.filter, d1, d2]

theorem spreadTargets_witnessC4 : spreadTargets witnessReactorC4 = [1, 2] := by
  unfold spreadTargets
  rw [collectHigh_witnessC4]
  simp [outsOf, AtomSpace.getAtom, lookupA, witnessReactorC4]

theorem bank_after_spread_witnessC4 :
    (witnessReactorC4.spreadAttention).attentionBank
      = [(1, ⟨3 / 10, 2 / 10, 2 / 10⟩), (2, ⟨3 / 10, 2 / 10, 2 / 10⟩),
         (3, ⟨8 / 10, 5 / 10, 5 / 10⟩)] := by
  rw [spreadAttention_bank_eq, spreadTargets_witnessC4]
  show bumpSti (bumpSti witnessReactorC4.attentionBank 1) 2 = _
  norm_num [witnessReactorC4, bumpSti, lookupA, setAssoc, min_def]

/-- C4 witness: one `spreadAttention` call on the L/A/B scenario raises the
sti of A and B from 0.2 to 0.3, leaves L's attention unchanged at 0.8, and a
second call raises A to 0.4 (not idempotent). -/
theorem spreadAttention_spec_witness :
    lookupA (witnessReactorC4.spreadAttention).attentionBank 1
      = some ⟨3 / 10, 2 / 10, 2 / 10⟩ ∧
    lookupA (witnessReactorC4.spreadAttention).attentionBank 2
      = some ⟨3 / 10, 2 / 10, 2 / 10⟩ ∧
    lookupA (witnessReactorC4.spreadAttention).attentionBank 3
      = some ⟨8 / 10, 5 / 10, 5 / 10⟩ ∧
    lookupA ((witnessReactorC4.spreadAttention).spreadAttention).attentionBank 1
      = some ⟨4 / 10, 2 / 10, 2 / 10⟩ := by
  have hmin3 : min (1 : ℚ) (2 / 10 + 1 / 10) = 3 / 10 := by norm_num
  have hmin4 : min (1 : ℚ) (3 / 10 + 1 / 10) = 4 / 10 := by norm_num
  have hA := (spreadAttention_spec witnessReactorC4).2.1 3 "L" [1, 2] 1
    ⟨8 / 10, 5 / 10, 5 / 10⟩ ⟨2 / 10, 2 / 10, 2 / 10⟩ rfl (by norm_num) rfl
    (by decide) (by rw [spreadTargets_witnessC4]; decide) rfl
  have hB := (spreadAttention_spec witnessReactorC4).2.1 3 "L" [1, 2] 2
    ⟨8 / 10, 5 / 10, 5 / 10⟩ ⟨2 / 10, 2 / 10, 2 / 10⟩ rfl (by norm_num) rfl
    (by decide) (by rw [spreadTargets_witnessC4]; decide) rfl
  have hL := (spreadAttention_spec witnessReactorC4).2.2 3
    (by rw [spreadTargets_witnessC4]; decide)
  have hch2 : collectHigh (witnessReactorC4.spreadAttention).attentionBank
      = [3] := by
    have d1 : decide ((7 : ℚ) / 10 < 3 / 10) = false := by norm_num
    have d2 : decide ((7 : ℚ) / 10 < 8 / 10) = true := by norm_num
    simp [collectHigh, bank_after_spread_witnessC4, List.filter, d1, d2]
  have hst2 : spreadTargets (witnessReactorC4.spreadAttention) = [1, 2] := by
    unfold spreadTargets
    rw [spreadAttention_atomspace_eq, hch2]
    simp [outsOf, AtomSpace.getAtom, lookupA, witnessReactorC4]
  have hA2 := (spreadAttention_spec (witnessReactorC4.spreadAttention)).2.1 3 "L"
    [1, 2] 1 ⟨8 / 10, 5 / 10, 5 / 10⟩ ⟨3 / 10, 2 / 10, 2 / 10⟩
    (by rw [bank_after_spread_witnessC4]; rfl) (by norm_num) rfl (by decide)
    (by rw [hst2]; decide) (by rw [bank_after_spread_witnessC4]; rfl)
  refine ⟨?_, ?_, ?_, ?_⟩
  · rw [hA]
    simp only [Option.some.injEq, AttentionValue.mk.injEq]
    norm_num
  · rw [hB]
    simp only [Option.some.injEq, AttentionValue.mk.injEq]
    norm_num
  · rw [hL]
    rfl
  · rw [hA2]
    simp only [Option.some.injEq, AttentionValue.mk.injEq]
    norm_num

/-- C10: for an atom `A` in the outgoing list of a collected high-sti link
that had NO attention entry before the call (and is bumped exactly once),
`spreadAttention` materializes its entry by zero-initializing it rather than
using the `{0.5, 0.5, 0.5}` read default: before the call `getAttention`
returns the default `{0.5, 0.5, 0.5}`, afterwards it returns
`{0.1, 0.0, 0.0}`. -/
theorem spreadAttention_materializes_zero_init (r : CognitiveFusionReactor)
    (L : ℕ) (t : String) (outs : List ℕ) (A : ℕ) (avL : AttentionValue)
    (hL : lookupA r.attentionBank L = some avL) (hsti : 7 / 10 < avL.sti)
    (hatom : r.atomspace.getAtom L = some (Atom.link t outs))
    (hmem : A ∈ outs) (hcount : (spreadTargets r).count A = 1)
    (hA : lookupA r.attentionBank A = none) :
    r.getAttention A = ⟨1 / 2, 1 / 2, 1 / 2⟩ ∧
    (r.spreadAttention).getAttention A = ⟨1 / 10, 0, 0⟩ := by
  constructor
  · simp [CognitiveFusionReactor.getAttention, hA]
  · simp only [CognitiveFusionReactor.getAttention]
    rw [spreadAttention_bank_eq, lookupA_foldl_bumpSti, hcount, hA]
    norm_num [bumpN, bumpOnce]

/-- Concrete reactor for the C10 witness: like the C4 scenario but the
outgoing atoms 1 and 2 have no attention entries at all. -/
def witnessReactorC10 : CognitiveFusionReactor :=
  ⟨⟨[(1, Atom.node "A" []), (2, Atom.node "B" []), (3, Atom.link "L" [1, 2])],
    [("A", [1]), ("B", [2]), ("L", [3])], 3⟩,
   ⟨0, []⟩, ⟨0, ⟨[], 0⟩⟩, ⟨[]⟩, 0, 0, [],
   [(3, ⟨8 / 10, 5 / 10, 5 / 10⟩)]⟩

theorem spreadTargets_witnessC10 : spreadTargets witnessReactorC10 = [1, 2] := by
  have d2 : decide ((7 : ℚ) / 10 < 8 / 10) = true := by norm_num
  simp [spreadTargets, collectHigh, List.filter, d2, outsOf,
    AtomSpace.getAtom, lookupA, witnessReactorC10]

/-- C10 witness: atom 1 has no attention entry; `getAttention` reads the
0.5-default before the call and `{0.1, 0, 0}` after it. -/
theorem spreadAttention_materializes_zero_init_witness :
    witnessReactorC10.getAttention 1 = ⟨1 / 2, 1 / 2, 1 / 2⟩ ∧
    (witnessReactorC10.spreadAttention).getAttention 1 = ⟨1 / 10, 0, 0⟩ :=
  spreadAttention_materializes_zero_init witnessReactorC10 3 "L" [1, 2] 1
    ⟨8 / 10, 5 / 10, 5 / 10⟩ rfl (by norm_num) rfl (by decide)
    (by rw [spreadTargets_witnessC10]; decide) rfl

-- ======================================================================
-- Claim C3 (confirmed): k-NN query contract
-- ======================================================================

theorem bySimilarityDesc_trans {α : Type} (a b c : α × ℚ)
    (hab : bySimilarityDesc a b = true) (hbc : bySimilarityDesc b c = true) :
    bySimilarityDesc a c = true := by
  simp only [bySimilarityDesc, decide_eq_true_eq] at *
  exact le_trans hbc hab

theorem bySimilarityDesc_total {α : Type} (a b : α × ℚ) :
    (bySimilarityDesc a b || bySimilarityDesc b a) = true := by
  simp only [bySimilarityDesc, Bool.or_eq_true, decide_eq_true_eq]
  exact le_total b.2 a.2

/-- Sortedness, truncation and membership facts shared by both k-NN paths. -/
theorem mergeSort_take_props {α : Type} (l : List (α × ℚ)) (k : ℕ) :
    ((l.mergeSort bySimilarityDesc).take k).Pairwise (fun a b => b.2 ≤ a.2) ∧
    ((l.mergeSort bySimilarityDesc).take k).length ≤ k ∧
    ∀ p ∈ (l.mergeSort bySimilarityDesc).take k, p ∈ l := by
  refine ⟨?_, ?_, ?_⟩
  · have hs := @List.sorted_mergeSort _ bySimilarityDesc
      (fun a b c => bySimilarityDesc_trans a b c)
      (fun a b => bySimilarityDesc_total a b) l
    have hw : (l.mergeSort bySimilarityDesc).Pairwise (fun a b => b.2 ≤ a.2) :=
      hs.imp fun h => by
        simpa only [bySimilarityDesc, decide_eq_true_eq] using h
    exact List.Pairwise.sublist (List.take_sublist _ _) hw
  · rw [List.length_take]
    exact min_le_left _ _
  · intro p hp
    exact List.mem_mergeSort.mp (List.take_subset _ _ hp)

theorem mem_collectNodeSims (sq : ℚ → ℚ) (query : List ℚ) (threshold : ℚ)
    (atoms : List (ℕ × Atom)) :
    ∀ p ∈ collectNodeSims sq query threshold atoms, threshold ≤ p.2 := by
  induction atoms with
  | nil => simp [collectNodeSims]
  | cons q rest ih =>
    intro p hp
    simp only [collectNodeSims, List.foldr_cons] at hp
    cases hq : q.2 with
    | node nm emb =>
      rw [hq] at hp
      by_cases hne : emb ≠ []
      · simp only [if_pos hne] at hp
        by_cases ht : threshold ≤ cosineSimilarity sq query emb
        · simp only [if_pos ht, List.mem_cons] at hp
          rcases hp with h1 | h2
          · rw [h1]
            exact ht
          · exact ih p h2
        · simp only [if_neg ht] at hp
          exact ih p hp
      · simp only [if_neg hne] at hp
        exact ih p hp
    | link t outs =>
      rw [hq] at hp
      exact ih p hp

theorem mem_collectSpaceSims (sq : ℚ → ℚ) (query : TensorEmbedding)
    (threshold : ℚ) (embeddings : List (String × TensorEmbedding)) :
    ∀ p ∈ collectSpaceSims sq query threshold embeddings, threshold ≤ p.2 := by
  induction embeddings with
  | nil => simp [collectSpaceSims]
  | cons q rest ih =>
    intro p hp
    simp only [collectSpaceSims, List.foldr_cons] at hp
    by_cases ht : threshold ≤ TensorEmbedding.cosineSimilarityT sq query q.2
    · simp only [if_pos ht, List.mem_cons] at hp
      rcases hp with h1 | h2
      · rw [h1]
        exact ht
      · exact ih p h2
    · simp only [if_neg ht] at hp
      exact ih p hp

theorem cosineSimilarity_degenerate_zero (sq : ℚ → ℚ) (hsq : sq 0 = 0)
    (a b : List ℚ) (h : a.length ≠ b.length ∨ sumSq b = 0) :
    cosineSimilarity sq a b = 0 := by
  unfold cosineSimilarity
  by_cases hfirst : a.length ≠ b.length ∨ a.length = 0
  · rw [if_pos hfirst]
  · rw [if_neg hfirst]
    push_neg at hfirst
    rcases h with hmis | hzero
    · exact absurd hmis (not_not_intro hfirst.1)
    · rw [hzero, hsq, mul_zero, if_pos (by norm_num)]

/-- C3: both k-NN paths return a list sorted by non-increasing similarity, of
length at most `k`, containing no entry below the threshold; and the cosine
similarity used by the store's `querySimilar` yields 0.0 — never an error —
for a candidate embedding of mismatched dimension or zero norm (the whole
scan is a total function). -/
theorem knn_query_contract (sq : ℚ → ℚ) (s : AtomSpace) (sp : EmbeddingSpace)
    (query : List ℚ) (qe : TensorEmbedding) (k : ℕ) (threshold : ℚ) :
    ((s.querySimilar sq query k threshold).Pairwise (fun a b => b.2 ≤ a.2) ∧
     (s.querySimilar sq query k threshold).length ≤ k ∧
     ∀ p ∈ s.querySimilar sq query k threshold, threshold ≤ p.2) ∧
    (∀ res, sp.findNearest sq qe k threshold = .ok res →
      res.Pairwise (fun a b => b.2 ≤ a.2) ∧ res.length ≤ k ∧
      ∀ p ∈ res, threshold ≤ p.2) ∧
    (sq 0 = 0 → ∀ emb : List ℚ, emb.length ≠ query.length ∨ sumSq emb = 0 →
      cosineSimilarity sq query emb = 0) := by
  refine ⟨⟨?_, ?_, ?_⟩, ?_, ?_⟩
  · exact (mergeSort_take_props (collectNodeSims sq query threshold s.atoms) k).1
  · exact (mergeSort_take_props (collectNodeSims sq query threshold s.atoms) k).2.1
  · intro p hp
    exact mem_collectNodeSims sq query threshold s.atoms p
      ((mergeSort_take_props (collectNodeSims sq query threshold s.atoms) k).2.2
        p hp)
  · intro res hres
    by_cases hdim : qe.dimensions ≠ sp.dimensions
    · simp only [EmbeddingSpace.findNearest, if_pos hdim] at hres
      exact absurd hres (by simp)
    · simp only [EmbeddingSpace.findNearest, if_neg hdim,
        Except.ok.injEq] at hres
      subst hres
      refine ⟨(mergeSort_take_props _ k).1, (mergeSort_take_props _ k).2.1,
        fun p hp => ?_⟩
      exact mem_collectSpaceSims sq qe threshold sp.embeddings p
        ((mergeSort_take_props (collectSpaceSims sq qe threshold sp.embeddings)
          k).2.2 p hp)
  · intro hsq emb h
    exact cosineSimilarity_degenerate_zero sq hsq query emb
      (h.imp (fun hm => fun hc => hm hc.symm) id)

/-- Concrete store for the C3 witness: nodes 1 and 2 with embeddings {1} and
{2}. -/
def witnessStoreC3 : AtomSpace :=
  ⟨[(1, Atom.node "a" [1]), (2, Atom.node "b" [2])],
   [("a", [1]), ("b", [2])], 2⟩

/-- C3 witness: on a concrete store the query result is sorted, short enough
and above threshold, and a zero-norm candidate gets similarity 0. -/
theorem knn_query_contract_witness :
    (witnessStoreC3.querySimilar (fun x => x) [1] 5 0).Pairwise
      (fun a b => b.2 ≤ a.2) ∧
    (witnessStoreC3.querySimilar (fun x => x) [1] 5 0).length ≤ 5 ∧
    cosineSimilarity (fun x => x) [1] [0] = 0 :=
  ⟨(knn_query_contract (fun x => x) witnessStoreC3 ⟨1, []⟩ [1] [1] 5 0).1.1,
   (knn_query_contract (fun x => x) witnessStoreC3 ⟨1, []⟩ [1] [1] 5 0).1.2.1,
   (knn_query_contract (fun x => x) witnessStoreC3 ⟨1, []⟩ [1] [1] 5 0).2.2 rfl
     [0] (Or.inr (by norm_num [sumSq]))⟩

-- ======================================================================
-- Claim C2 (corrected): transform checks dimensions, train does not
-- ======================================================================

theorem NeuralLayer.forward_eq_of_le (l : NeuralLayer) (input : List ℚ)
    (h : l.inputSize ≤ input.length) :
    l.forward input = some
      ({ l with
          lastInput := input,
          lastPreactivation := (List.range l.outputSize).map (preactAt l input) },
       ((List.range l.outputSize).map (preactAt l input)).map l.activation) := by
  unfold NeuralLayer.forward
  rw [if_neg (not_lt.mpr h)]

/-- Single-layer network used by the dimension-check counterexample: a
`NeuralLayer(2, 1)` with concrete weights (the random initialization is
irrelevant to whether a check happens). -/
def witnessLayerC2 : NeuralLayer :=
  ⟨2, 1, [[1, 1]], [0], relu, reluDerivative, [], []⟩

/-- C2, counterexample: the claim "LearnableNetwork::train fails with a
dimension-mismatch error for every input whose length differs from the
network's input size" is false: on a network whose (only) layer has input
size 2 the 3-element input `{1, 2, 3}` is silently accepted and `train`
computes and returns a loss (`isSome`, i.e. no failure of any kind). -/
theorem train_accepts_mismatched_input :
    ([(1 : ℚ), 2, 3].length ≠ witnessLayerC2.inputSize) ∧
    (LearnableNetwork.train ⟨[witnessLayerC2], 1 / 100⟩ [1, 2, 3] [0]).isSome
      = true := by
  constructor
  · decide
  · rfl

/-- C2, amended: `EmbeddingLearner::transform` fails with a dimension-mismatch
error for every input whose length differs from the learner's configured
dimension; `LearnableNetwork::train`, however, performs NO dimension check:
a layer's forward pass accepts any input at least as long as its input size
(reading only the first `inputSize` entries), and `train` on a single-layer
network returns a loss for any such input with a long-enough target.  (An
input shorter than the input size is an out-of-bounds read — undefined
behaviour, not a dimension-mismatch error.) -/
theorem dimension_mismatch_amended (le : EmbeddingLearner)
    (input : TensorEmbedding) :
    (input.dimensions ≠ le.embeddingDim →
      le.transform input = .error "Input dimension mismatch") ∧
    (∀ (l : NeuralLayer) (inp : List ℚ), l.inputSize ≤ inp.length →
      (l.forward inp).isSome = true) ∧
    (∀ (l : NeuralLayer) (inp target : List ℚ) (lr : ℚ),
      l.inputSize ≤ inp.length → l.outputSize ≤ target.length →
      (LearnableNetwork.train ⟨[l], lr⟩ inp target).isSome = true) := by
  refine ⟨fun hne => ?_, fun l inp hle => ?_, fun l inp target lr hle hout => ?_⟩
  · simp only [EmbeddingLearner.transform, if_pos hne]
  · rw [NeuralLayer.forward_eq_of_le l inp hle]
    rfl
  · have hfwd : forwardLayers [l] inp
        = some ([{ l with
              lastInput := inp,
              lastPreactivation := (List.range l.outputSize).map (preactAt l inp) }],
          ((List.range l.outputSize).map (preactAt l inp)).map l.activation) := by
      unfold forwardLayers
      rw [NeuralLayer.forward_eq_of_le l inp hle]
      rfl
    have hlen : (((List.range l.outputSize).map (preactAt l inp)).map
        l.activation).length = l.outputSize := by
      simp
    unfold LearnableNetwork.train LearnableNetwork.forward
    rw [hfwd]
    simp only [Option.isSome]
    rw [if_neg (by rw [hlen]; exact not_lt.mpr hout)]

/-- C2 witness: a 1-element input to a 2-dimensional learner is rejected with
the dimension-mismatch error, while `train` accepts a 3-element input on a
2-input layer. -/
theorem dimension_mismatch_amended_witness :
    (EmbeddingLearner.transform ⟨2, ⟨[witnessLayerC2], 1 / 100⟩⟩ [1]
      = .error "Input dimension mismatch") ∧
    (LearnableNetwork.train ⟨[witnessLayerC2], 1 / 100⟩ [1, 2, 3] [0]).isSome
      = true :=
  ⟨(dimension_mismatch_amended ⟨2, ⟨[witnessLayerC2], 1 / 100⟩⟩ [1]).1
      (by decide),
   (dimension_mismatch_amended ⟨2, ⟨[witnessLayerC2], 1 / 100⟩⟩ [1]).2.2
      witnessLayerC2 [1, 2, 3] [0] (1 / 100) (by decide) (by decide)⟩

-- ======================================================================
-- Claim C5 (confirmed): learnSimilarity sentinel and loss sign
-- ======================================================================

theorem forwardLayers_two_ok (l1 l2 : NeuralLayer) (input : List ℚ)
    (h1 : l1.inputSize ≤ input.length)
    (h2 : l2.inputSize ≤ l1.outputSize) :
    forwardLayers [l1, l2] input = some
      ([{ l1 with
          lastInput := input,
          lastPreactivation := (List.range l1.outputSize).map (preactAt l1 input) },
        { l2 with
          lastInput := ((List.range l1.outputSize).map (preactAt l1 input)).map
            l1.activation,
          lastPreactivation := (List.range l2.outputSize).map
            (preactAt l2 (((List.range l1.outputSize).map (preactAt l1 input)).map
              l1.activation)) }],
       ((List.range l2.outputSize).map
         (preactAt l2 (((List.range l1.outputSize).map (preactAt l1 input)).map
           l1.activation))).map l2.activation) := by
  have hlen1 : (((List.range l1.outputSize).map (preactAt l1 input)).map
      l1.activation).length = l1.outputSize := by simp
  have f1 := NeuralLayer.forward_eq_of_le l1 input h1
  have f2 := NeuralLayer.forward_eq_of_le l2
    (((List.range l1.outputSize).map (preactAt l1 input)).map l1.activation)
    (by rw [hlen1]; exact h2)
  simp only [forwardLayers, f1, f2]

theorem transform_ok_of_shape (le : EmbeddingLearner) (e : TensorEmbedding)
    (hdim : e.dimensions = le.embeddingDim) (hsh : le.CtorShape) :
    ∃ (le' : EmbeddingLearner) (out : List ℚ),
      le.transform e = .ok (le', out) ∧ out.length = le.embeddingDim ∧
      le'.embeddingDim = le.embeddingDim ∧ le'.CtorShape := by
  obtain ⟨l1, l2, hl, h1i, h1o, h2i, h2o, hw1, hw2⟩ := hsh
  have he : l1.inputSize ≤ e.length := le_of_eq (h1i.trans hdim.symm)
  have h21 : l2.inputSize ≤ l1.outputSize := le_of_eq (h2i.trans h1o.symm)
  have hfwd := forwardLayers_two_ok l1 l2 e he h21
  refine ⟨{ le with
      network := { le.network with layers :=
        [{ l1 with
           lastInput := e,
           lastPreactivation := (List.range l1.outputSize).map (preactAt l1 e) },
         { l2 with
           lastInput := ((List.range l1.outputSize).map (preactAt l1 e)).map
             l1.activation,
           lastPreactivation := (List.range l2.outputSize).map
             (preactAt l2 (((List.range l1.outputSize).map (preactAt l1 e)).map
               l1.activation)) }] } },
    ((List.range l2.outputSize).map
      (preactAt l2 (((List.range l1.outputSize).map (preactAt l1 e)).map
        l1.activation))).map l2.activation, ?_, ?_, rfl, ?_⟩
  · simp only [EmbeddingLearner.transform, if_neg (not_not_intro hdim),
      LearnableNetwork.forward, hl, hfwd]
  · rw [List.length_map, List.length_map, List.length_range, h2o]
  · exact ⟨_, _, rfl, h1i, h1o, h2i, h2o, hw1, hw2⟩

theorem train_two_ok (net : LearnableNetwork) (l1 l2 : NeuralLayer) (dim : ℕ)
    (input target : List ℚ) (hl : net.layers = [l1, l2])
    (h1i : l1.inputSize = dim) (h1o : l1.outputSize = 2 * dim)
    (h2i : l2.inputSize = 2 * dim) (h2o : l2.outputSize = dim)
    (hin : dim ≤ input.length) (htg : dim ≤ target.length) :
    (net.train input target).isSome = true := by
  have he : l1.inputSize ≤ input.length := h1i ▸ hin
  have h21 : l2.inputSize ≤ l1.outputSize := le_of_eq (h2i.trans h1o.symm)
  have hfwd := forwardLayers_two_ok l1 l2 input he h21
  have hlen : (((List.range l2.outputSize).map
      (preactAt l2 (((List.range l1.outputSize).map (preactAt l1 input)).map
        l1.activation))).map l2.activation).length = dim := by
    rw [List.length_map, List.length_map, List.length_range, h2o]
  unfold LearnableNetwork.train LearnableNetwork.forward
  simp only [hl, hfwd]
  rw [if_neg (by rw [hlen]; exact not_lt.mpr htg)]
  rfl

/-- C5: `learnSimilarity(c1, c2, target)` returns exactly -1.0 with the whole
reactor (in particular the network) untouched when either name has no
embedding in the space; when both are present (and the learner has its
constructor shape with matching dimensions) it delegates to the learner and
returns the loss `(currentSimilarity - target)^2` — the square of the
similarity error of the transformed embeddings, computed before the weight
update — which is always ≥ 0. -/
theorem learnSimilarity_spec (sq : ℚ → ℚ) (r : CognitiveFusionReactor)
    (c1 c2 : String) (t : ℚ) :
    ((r.embeddingSpace.getEmbedding c1 = none ∨
      r.embeddingSpace.getEmbedding c2 = none) →
      r.learnSimilarity sq c1 c2 t = .ok (-1, r)) ∧
    (∀ e1 e2, r.embeddingSpace.getEmbedding c1 = some e1 →
      r.embeddingSpace.getEmbedding c2 = some e2 →
      r.learner.CtorShape →
      e1.dimensions = r.learner.embeddingDim →
      e2.dimensions = r.learner.embeddingDim →
      ∃ (la lb : EmbeddingLearner) (t1 t2 : List ℚ)
        (r' : CognitiveFusionReactor),
        r.learner.transform e1 = .ok (la, t1) ∧
        la.transform e2 = .ok (lb, t2) ∧
        r.learnSimilarity sq c1 c2 t
          = .ok ((TensorEmbedding.cosineSimilarityT sq t1 t2 - t) ^ 2, r') ∧
        0 ≤ (TensorEmbedding.cosineSimilarityT sq t1 t2 - t) ^ 2) := by
  constructor
  · intro hmiss
    rcases hmiss with h1 | h2
    · cases hc2 : r.embeddingSpace.getEmbedding c2 with
      | none => simp only [CognitiveFusionReactor.learnSimilarity, h1, hc2]
      | some e => simp only [CognitiveFusionReactor.learnSimilarity, h1, hc2]
    · cases hc1 : r.embeddingSpace.getEmbedding c1 with
      | none => simp only [CognitiveFusionReactor.learnSimilarity, h2, hc1]
      | some e => simp only [CognitiveFusionReactor.learnSimilarity, h2, hc1]
  · intro e1 e2 h1 h2 hsh hd1 hd2
    obtain ⟨la, t1, htr1, hlen1, hdim1, hsh1⟩ :=
      transform_ok_of_shape r.learner e1 hd1 hsh
    obtain ⟨lb, t2, htr2, hlen2, hdim2, hsh2⟩ :=
      transform_ok_of_shape la e2 (hd2.trans hdim1.symm) hsh1
    obtain ⟨m1, m2, hml, hm1i, hm1o, hm2i, hm2o, hmw1, hmw2⟩ := hsh2
    have hdl : lb.embeddingDim = r.learner.embeddingDim := hdim2.trans hdim1
    have htno := train_two_ok lb.network m1 m2 lb.embeddingDim e1
      ((List.range r.learner.embeddingDim).map
        (fun i => e1.getD i 0 +
          (t - TensorEmbedding.cosineSimilarityT sq t1 t2) * (1 / 10) *
            (t2.getD i 0 - t1.getD i 0)))
      hml hm1i hm1o hm2i hm2o (le_of_eq (hdl.trans hd1.symm))
      (by rw [List.length_map, List.length_range]; exact le_of_eq hdl)
    obtain ⟨qn, htrn⟩ := Option.isSome_iff_exists.mp htno
    obtain ⟨q, net'⟩ := qn
    refine ⟨la, lb, t1, t2,
      { r with learner := { lb with network := net' } }, htr1, htr2, ?_,
      sq_nonneg _⟩
    simp only [CognitiveFusionReactor.learnSimilarity, h1, h2,
      EmbeddingLearner.learnFromSimilarity, htr1, htr2, htrn]

/-- First layer (1 → 2) of the C5 witness learner. -/
def witnessLayer1C5 : NeuralLayer :=
  ⟨1, 2, [[1], [0]], [0, 0], relu, reluDerivative, [], []⟩

/-- Second layer (2 → 1) of the C5 witness learner. -/
def witnessLayer2C5 : NeuralLayer :=
  ⟨2, 1, [[1, 0]], [0], relu, reluDerivative, [], []⟩

/-- Concrete reactor for the C5 witness: a 1-dimensional learner with its
constructor shape and embeddings "a" ↦ {1}, "b" ↦ {2}. -/
def witnessReactorC5 : CognitiveFusionReactor :=
  ⟨AtomSpace.empty, ⟨1, [("a", [1]), ("b", [2])]⟩,
   ⟨1, ⟨[witnessLayer1C5, witnessLayer2C5], 1 / 100⟩⟩, ⟨[]⟩, 1, 1 / 100, [], []⟩

/-- C5 witness: a missing name yields exactly the sentinel -1.0 with the
reactor untouched, and with both names present the call succeeds. -/
theorem learnSimilarity_spec_witness :
    CognitiveFusionReactor.learnSimilarity (fun x => x) witnessReactorC5
      "missing" "b" (9 / 10) = .ok (-1, witnessReactorC5) ∧
    (CognitiveFusionReactor.learnSimilarity (fun x => x) witnessReactorC5
      "a" "b" (9 / 10)).isOk = true := by
  constructor
  · exact (learnSimilarity_spec (fun x => x) witnessReactorC5 "missing" "b"
      (9 / 10)).1 (Or.inl rfl)
  · obtain ⟨la, lb, t1, t2, r', hh1, hh2, hh3, hh4⟩ :=
      (learnSimilarity_spec (fun x => x) witnessReactorC5 "a" "b" (9 / 10)).2
        [1] [2] rfl rfl
        ⟨witnessLayer1C5, witnessLayer2C5, rfl, rfl, rfl, rfl, rfl,
          ⟨rfl, by decide, rfl⟩, ⟨rfl, by decide, rfl⟩⟩ rfl rfl
    rw [hh3]
    rfl

-- ======================================================================
-- Claim C9 (confirmed): addConcept on an existing node
-- ======================================================================

/-- C9: `addConcept(name, embedding)` when a Node with that name already
exists (and is the dedup-visible first entry of the name index) keeps the
store untouched but re-initializes that handle's relevance to 0.5 and its
attention to {0.5, 0.5, 0.5}; when the embedding is non-empty with the
configured dimension it appends a second `(name, vector)` entry to the
embedding space, which first-match lookup by name never returns (the lookup
still yields the pre-existing first entry). -/
theorem addConcept_reinitializes (r : CognitiveFusionReactor) (name : String)
    (emb : List ℚ) (h : ℕ) (rest : List ℕ) (nm : String) (e0 : List ℚ)
    (v0 : TensorEmbedding)
    (hidx : r.atomspace.indexOf name = some (h :: rest))
    (hat : lookupA r.atomspace.atoms h = some (Atom.node nm e0))
    (hne : emb ≠ []) (hlen : emb.length = r.embeddingDim)
    (hdims : r.embeddingSpace.dimensions = r.embeddingDim)
    (hprior : lookupA r.embeddingSpace.embeddings name = some v0) :
    ∃ r', r.addConcept name emb = .ok (h, r') ∧
      r'.atomspace = r.atomspace ∧
      r'.embeddingSpace.embeddings
        = r.embeddingSpace.embeddings ++ [(name, emb)] ∧
      r'.embeddingSpace.getEmbedding name
        = r.embeddingSpace.getEmbedding name ∧
      lookupA r'.relevanceScores h = some (1 / 2) ∧
      lookupA r'.attentionBank h = some ⟨1 / 2, 1 / 2, 1 / 2⟩ := by
  have hadd : r.atomspace.addNode name emb = (h, r.atomspace) :=
    addNode_existing r.atomspace name emb h rest nm e0 hidx hat
  have hemb : TensorEmbedding.dimensions emb ≠ r.embeddingSpace.dimensions
      ↔ False := by
    simp only [TensorEmbedding.dimensions, hdims, iff_false, not_not]
    exact hlen
  have hclamp : clampQ (1 / 2) 0 1 = 1 / 2 := by norm_num [clampQ]
  refine ⟨{ r with
      embeddingSpace := ⟨r.embeddingSpace.dimensions,
        r.embeddingSpace.embeddings ++ [(name, emb)]⟩,
      relevanceScores := setAssoc r.relevanceScores h (clampQ (1 / 2) 0 1),
      attentionBank := setAssoc r.attentionBank h ⟨1 / 2, 1 / 2, 1 / 2⟩ },
    ?_, rfl, rfl, ?_, ?_, ?_⟩
  · simp only [CognitiveFusionReactor.addConcept, hadd, if_pos (And.intro hne hlen),
      EmbeddingSpace.addEmbedding, if_neg (hemb.mp ∘ id)]
    rfl
  · show lookupA (r.embeddingSpace.embeddings ++ [(name, emb)]) name
      = lookupA r.embeddingSpace.embeddings name
    rw [lookupA_append_left _ _ _ _ hprior, hprior]
  · rw [lookupA_setAssoc_self, hclamp]
  · exact lookupA_setAssoc_self _ _ _

/-- Concrete reactor for the C9 witness: node "cat" (handle 1) with a stored
embedding entry, relevance 0.9 and attention 0.9 for its handle. -/
def witnessReactorC9 : CognitiveFusionReactor :=
  ⟨⟨[(1, Atom.node "cat" [5])], [("cat", [1])], 1⟩,
   ⟨1, [("cat", [5])]⟩, ⟨1, ⟨[], 0⟩⟩, ⟨[]⟩, 1, 0,
   [(1, 9 / 10)], [(1, ⟨9 / 10, 9 / 10, 9 / 10⟩)]⟩

/-- C9 witness: `addConcept("cat", {7})` on a reactor where "cat" already
exists returns the old handle 1, resets its relevance to 0.5 and attention to
{0.5, 0.5, 0.5}, and lookup by name still returns the original vector {5}. -/
theorem addConcept_reinitializes_witness :
    (witnessReactorC9.addConcept "cat" [7]).toOption.map Prod.fst = some 1 ∧
    (witnessReactorC9.addConcept "cat" [7]).toOption.map
      (fun p => lookupA p.2.relevanceScores 1) = some (some (1 / 2)) ∧
    (witnessReactorC9.addConcept "cat" [7]).toOption.map
      (fun p => lookupA p.2.attentionBank 1)
      = some (some ⟨1 / 2, 1 / 2, 1 / 2⟩) ∧
    (witnessReactorC9.addConcept "cat" [7]).toOption.map
      (fun p => p.2.embeddingSpace.getEmbedding "cat") = some (some [5]) := by
  obtain ⟨r', ha, hb, hc, hd, he2, hf⟩ :=
    addConcept_reinitializes witnessReactorC9 "cat" [7] 1 [] "cat" [5] [5]
      rfl rfl (by decide) rfl rfl rfl
  refine ⟨?_, ?_, ?_, ?_⟩
  · rw [ha]
    rfl
  · rw [ha]
    show some (lookupA r'.relevanceScores 1) = some (some (1 / 2))
    rw [he2]
  · rw [ha]
    show some (lookupA r'.attentionBank 1)
      = some (some ⟨1 / 2, 1 / 2, 1 / 2⟩)
    rw [hf]
  · rw [ha]
    show some (r'.embeddingSpace.getEmbedding "cat") = some (some [5])
    rw [hd]
    rfl

end BoltCognitive
